import Mathlib

/-!
Shallow embedding of the meal_max battle subsystem
(`meal_max/models/battle_model.py` and the record store specified in spec §4.1),
with theorems settling the claims about scoring, battle resolution, staging,
and statistics updates.

Numbers are embedded as rationals (the Python code uses floats, but every
quantity involved — prices, integer string lengths, tier penalties, the
delta, and random samples — is handled here exactly).  Exceptions are
embedded as `Except`: an `Except.error` result corresponds to a raised
`ValueError`, which in the Python code always occurs before any mutation,
so the pre-state survives unchanged; the `*Run` wrappers make that explicit.
The external random provider is embedded by passing the sampled value as an
argument to `battle`.
-/

namespace MealMax

/-- Difficulty tier of a meal: the `difficulty` column takes values
LOW, MED, HIGH (validated at creation). -/
inductive Difficulty where
  | LOW
  | MED
  | HIGH
deriving DecidableEq, Repr

/-- The `Meal` record as staged into the battle model: fields
`id, meal, cuisine, price, difficulty` (from `kitchen_model.Meal`,
constructed in the tests as `Meal(id=1, meal=..., cuisine=..., price=..., difficulty=...)`). -/
structure Meal where
  id : Nat
  meal : String
  cuisine : String
  price : ℚ
  difficulty : Difficulty
deriving DecidableEq, Repr

/-- The `difficulty_modifier` dictionary in `BattleModel.get_battle_score`:
`{"HIGH": 1, "MED": 2, "LOW": 3}`. -/
def difficulty_modifier : Difficulty → ℚ
  | Difficulty.HIGH => 1
  | Difficulty.MED => 2
  | Difficulty.LOW => 3

/-- The method `BattleModel.get_battle_score`:
`(combatant.price * len(combatant.cuisine)) - difficulty_modifier[combatant.difficulty]`. -/
def get_battle_score (combatant : Meal) : ℚ :=
  combatant.price * (combatant.cuisine.length : ℚ) - difficulty_modifier combatant.difficulty

/-- The spec-side scoring formula, written from the words of spec §4.2
(`tierPenalty = {HIGH:1, MED:2, LOW:3}`), to be compared with the
code-side `get_battle_score`. -/
def tierPenalty : Difficulty → ℚ
  | Difficulty.HIGH => 1
  | Difficulty.MED => 2
  | Difficulty.LOW => 3

/-- The spec-side score of spec §4.2: `price * length(category) - tierPenalty(tier)`. -/
def spec_score (m : Meal) : ℚ :=
  m.price * (m.cuisine.length : ℚ) - tierPenalty m.difficulty

/-- The battle engine state: `self.combatants`, a list of staged meals
(initialised empty in `BattleModel.__init__`). -/
structure BattleModel where
  combatants : List Meal
deriving DecidableEq, Repr

/-- A freshly constructed engine: `self.combatants = []`. -/
def BattleModel.init : BattleModel := ⟨[]⟩

/-- The outcome argument of `update_meal_stats`: the battle model passes
the strings `win` and `loss`. -/
inductive Outcome where
  | win
  | loss
deriving DecidableEq, Repr

/-- The observable result of a successful `BattleModel.battle` call:
the returned winner name, the post-state of the engine, and the
`update_meal_stats(id, outcome)` calls it issued, in order. -/
structure BattleResult where
  winner_name : String
  model : BattleModel
  stats_updates : List (Nat × Outcome)
deriving DecidableEq, Repr

/-- Python `list.remove(x)`: delete the first element equal to `x`.
(Python raises ValueError when `x` is absent; `battle` only ever removes
the loser, which is combatants[0] or combatants[1], so that branch is
unreachable there and is omitted.) -/
def removeFirst (l : List Meal) (x : Meal) : List Meal :=
  match l with
  | [] => []
  | y :: ys => if y = x then ys else y :: removeFirst ys x

/-- The method `BattleModel.battle`, with the sample returned by `get_random()` passed
in as `random_number`.  Raises (returns `Except.error`) when fewer than two
combatants are staged; otherwise computes the two scores, the normalised
`delta = abs(score_1 - score_2) / 100`, declares combatant 1 the winner iff
`delta > random_number`, issues the winner-first stats updates, removes the
loser from the staged list and returns the winner name. -/
def battle (m : BattleModel) (random_number : ℚ) : Except String BattleResult :=
  match m.combatants with
  | combatant_1 :: combatant_2 :: _ =>
    let score_1 := get_battle_score combatant_1
    let score_2 := get_battle_score combatant_2
    let delta := |score_1 - score_2| / 100
    if delta > random_number then
      Except.ok ⟨combatant_1.meal, ⟨removeFirst m.combatants combatant_2⟩,
        [(combatant_1.id, Outcome.win), (combatant_2.id, Outcome.loss)]⟩
    else
      Except.ok ⟨combatant_2.meal, ⟨removeFirst m.combatants combatant_1⟩,
        [(combatant_2.id, Outcome.win), (combatant_1.id, Outcome.loss)]⟩
  | _ => Except.error ("Two combatants must be prepped for a battle.")

/-- Running `battle` with Python exception semantics: a raise leaves the
engine state untouched and issues no stats updates (`battle` checks the
combatant count before doing anything else). -/
def battleRun (m : BattleModel) (r : ℚ) : BattleModel × List (Nat × Outcome) × Option String :=
  match battle m r with
  | Except.ok res => (res.model, res.stats_updates, some res.winner_name)
  | Except.error _ => (m, [], none)

/-- The method `BattleModel.clear_combatants`: `self.combatants.clear()`. -/
def clear_combatants (_m : BattleModel) : BattleModel := ⟨[]⟩

/-- The method `BattleModel.prep_combatant`: raises when two combatants are already
staged, otherwise appends. -/
def prep_combatant (m : BattleModel) (combatant_data : Meal) : Except String BattleModel :=
  if m.combatants.length ≥ 2 then
    Except.error ("Combatant list is full, cannot add more combatants.")
  else
    Except.ok ⟨m.combatants ++ [combatant_data]⟩

/-- Running `prep_combatant` with exception semantics: a raise leaves the
staged list unchanged (the length check precedes the append). -/
def prepRun (m : BattleModel) (c : Meal) : BattleModel :=
  match prep_combatant m c with
  | Except.ok m2 => m2
  | Except.error _ => m

/-- The operations a caller can perform on one engine instance. -/
inductive EngineOp where
  | stage (c : Meal)
  | clear
  | resolve (r : ℚ)

/-- Effect of one operation on the engine state (failures leave it unchanged). -/
def applyOp (m : BattleModel) : EngineOp → BattleModel
  | EngineOp.stage c => prepRun m c
  | EngineOp.clear => clear_combatants m
  | EngineOp.resolve r => (battleRun m r).1

/-- Engine state after a sequence of operations on a freshly constructed engine. -/
def runOps (ops : List EngineOp) : BattleModel :=
  ops.foldl applyOp BattleModel.init

/-- A meal with battle score 70: `71 * len("X") - 1 = 70`. -/
def meal70 : Meal := ⟨1, "Meal70", "X", 71, Difficulty.HIGH⟩

/-- A meal with battle score 50: `51 * len("Y") - 1 = 50`. -/
def meal50 : Meal := ⟨2, "Meal50", "Y", 51, Difficulty.HIGH⟩

/-! ## Record store (spec-modelled)

The record store implementation (`meal_max/models/kitchen_model.py`) is not
among the provided sources — only its test suite is — so the operations
below are modelled from spec §4.1, with the shapes cross-checked against
the SQL the tests expect. -/

/-- Modelled from the spec: a persisted record row of the missing
`kitchen_model.py`, spec §3/§6 — columns
`id, meal, cuisine, price, difficulty, battles, wins, deleted`. -/
structure StoredMeal where
  id : Nat
  meal : String
  cuisine : String
  price : ℚ
  difficulty : Difficulty
  battles : Nat
  wins : Nat
  deleted : Bool
deriving DecidableEq, Repr

/-- Modelled from the spec: the store failure taxonomy of spec §7 relevant
to `recordOutcome` and `leaderboard` (NotFound, Gone, InvalidArgument). -/
inductive StoreError where
  | notFound (meal_id : Nat)
  | gone (meal_id : Nat)
  | invalidArgument (sort_by : String)
deriving DecidableEq, Repr

/-- Modelled from the spec: lookup of a stored record by id (first row with
the given id, as a `WHERE id = ?` query on the unique key). -/
def getMealById (store : List StoredMeal) (meal_id : Nat) : Option StoredMeal :=
  store.find? (fun m => m.id == meal_id)

/-- Modelled from the spec: the statistics increment of `recordOutcome`,
spec §4.1 — `battles` goes up by 1, `wins` additionally by 1 iff
the outcome is WIN. -/
def applyOutcome (res : Outcome) (m : StoredMeal) : StoredMeal :=
  { m with battles := m.battles + 1,
           wins := if res = Outcome.win then m.wins + 1 else m.wins }

/-- Modelled from the spec: `recordOutcome(id, outcome)` of spec §4.1
(the missing `kitchen_model.update_meal_stats`): fails NotFound when the id
is absent, Gone when the record is soft-deleted, otherwise increments the
counters of the record with that id. -/
def update_meal_stats (store : List StoredMeal) (meal_id : Nat) (res : Outcome) :
    Except StoreError (List StoredMeal) :=
  match getMealById store meal_id with
  | none => Except.error (StoreError.notFound meal_id)
  | some m =>
    if m.deleted then
      Except.error (StoreError.gone meal_id)
    else
      Except.ok (store.map (fun x => if x.id = meal_id then applyOutcome res x else x))

/-- Modelled from the spec: running `recordOutcome` with the propagation
policy of spec §7 — a failure causes no partial mutation, so the store
survives unchanged. -/
def updateRun (store : List StoredMeal) (meal_id : Nat) (res : Outcome) :
    List StoredMeal × Option StoreError :=
  match update_meal_stats store meal_id res with
  | Except.ok s2 => (s2, none)
  | Except.error e => (store, some e)

/-- Modelled from the spec: one row of the leaderboard read model, spec §6 —
the record fields augmented with the computed win percentage. -/
structure LeaderboardEntry where
  id : Nat
  meal : String
  cuisine : String
  price : ℚ
  difficulty : Difficulty
  battles : Nat
  wins : Nat
  win_pct : ℚ
deriving DecidableEq, Repr

/-- Modelled from the spec: augmenting a record with
`win_ratio = wins / battles` expressed as a percentage (spec §4.1/§8:
`wins / battles * 100` exactly). -/
def toEntry (m : StoredMeal) : LeaderboardEntry :=
  ⟨m.id, m.meal, m.cuisine, m.price, m.difficulty, m.battles, m.wins,
    (m.wins : ℚ) / (m.battles : ℚ) * 100⟩

/-- Modelled from the spec: the leaderboard rows before sorting — all
non-deleted records with `battles > 0`, augmented (spec §4.1). -/
def leaderboardRows (store : List StoredMeal) : List LeaderboardEntry :=
  (store.filter (fun m => !m.deleted && decide (0 < m.battles))).map toEntry

/-- Modelled from the spec: the sort key of spec §4.1 — the battle count for
`battles_count`, the win percentage for `win_ratio`. -/
def sortKeyValue (sort_by : String) (e : LeaderboardEntry) : ℚ :=
  if sort_by = ("battles_count") then (e.battles : ℚ) else e.win_pct

/-- Modelled from the spec: `leaderboard(sortKey)` of spec §4.1 (the missing
`kitchen_model.get_leaderboard`): for the two valid keys, the filtered and
augmented rows sorted descending by the requested key (stable merge sort, so
ties keep store iteration order); any other key fails InvalidArgument. -/
def get_leaderboard (store : List StoredMeal) (sort_by : String) :
    Except StoreError (List LeaderboardEntry) :=
  if sort_by = ("battles_count") ∨ sort_by = ("win_ratio") then
    Except.ok (List.mergeSort (leaderboardRows store)
      (fun a b => decide (sortKeyValue sort_by b ≤ sortKeyValue sort_by a)))
  else
    Except.error (StoreError.invalidArgument sort_by)

/-! ## Claims -/

/-- Helper: `meal70` scores 70. -/
theorem score_meal70_eq : get_battle_score meal70 = 70 := by
  show (71 : ℚ) * (("X" : String).length : ℚ) - difficulty_modifier Difficulty.HIGH = 70
  rw [show (("X" : String).length) = 1 from rfl]
  norm_num [difficulty_modifier]

/-- Helper: `meal50` scores 50. -/
theorem score_meal50_eq : get_battle_score meal50 = 50 := by
  show (51 : ℚ) * (("Y" : String).length : ℚ) - difficulty_modifier Difficulty.HIGH = 50
  rw [show (("Y" : String).length) = 1 from rfl]
  norm_num [difficulty_modifier]

/-- C3: for every meal the battle score is exactly
`price * length(cuisine) - tierPenalty(difficulty)` with
`tierPenalty = {HIGH:1, MED:2, LOW:3}` (the spec-side formula), and the
function is deterministic: equal inputs yield equal scores. -/
theorem c3_score_formula :
    (∀ m : Meal, get_battle_score m = spec_score m) ∧
    (∀ m m' : Meal, m = m' → get_battle_score m = get_battle_score m') := by
  constructor
  · intro m
    cases h : m.difficulty <;>
      simp [get_battle_score, spec_score, difficulty_modifier, tierPenalty, h]
  · intro m m' h
    rw [h]

/-- C3 witness: the formula and determinism evaluated at the concrete meal `meal70`. -/
theorem c3_score_formula_witness :
    get_battle_score meal70 = spec_score meal70 ∧
    get_battle_score meal70 = get_battle_score meal70 :=
  ⟨c3_score_formula.1 meal70, c3_score_formula.2 meal70 meal70 rfl⟩

/-- C1: with exactly combatants `c1, c2` staged (in that order) and sample `r`,
`battle` succeeds and returns the name of `c1` iff
`|score c1 - score c2| / 100 > r`, otherwise the name of `c2`; in particular
with scores 70 and 50 (delta = 1/5), sample 1/10 yields combatant 1 and
sample 9/10 yields combatant 2. -/
theorem c1_battle_decision_rule :
    (∀ (c1 c2 : Meal) (r : ℚ),
      Except.map BattleResult.winner_name (battle ⟨[c1, c2]⟩ r) =
        Except.ok (if |get_battle_score c1 - get_battle_score c2| / 100 > r
                   then c1.meal else c2.meal)) ∧
    get_battle_score meal70 = 70 ∧
    get_battle_score meal50 = 50 ∧
    Except.map BattleResult.winner_name (battle ⟨[meal70, meal50]⟩ (1/10)) =
      Except.ok (meal70.meal) ∧
    Except.map BattleResult.winner_name (battle ⟨[meal70, meal50]⟩ (9/10)) =
      Except.ok (meal50.meal) := by
  have hgen : ∀ (c1 c2 : Meal) (r : ℚ),
      Except.map BattleResult.winner_name (battle ⟨[c1, c2]⟩ r) =
        Except.ok (if |get_battle_score c1 - get_battle_score c2| / 100 > r
                   then c1.meal else c2.meal) := by
    intro c1 c2 r
    simp only [battle]
    split <;> simp_all [Except.map]
  refine ⟨hgen, score_meal70_eq, score_meal50_eq, ?_, ?_⟩
  · rw [hgen meal70 meal50 (1/10), score_meal70_eq, score_meal50_eq,
      if_pos (by norm_num)]
  · rw [hgen meal70 meal50 (9/10), score_meal70_eq, score_meal50_eq,
      if_neg (by norm_num)]

/-- C2: with two equal-scoring combatants staged (delta = 0) and any sample
`r ≥ 0`, `battle` declares combatant 2 the winner: it returns the name of
`c2`, credits the win to `c2.id` and the loss to `c1.id`, and leaves `c2`
staged alone. -/
theorem c2_tie_break (c1 c2 : Meal) (r : ℚ)
    (hs : get_battle_score c1 = get_battle_score c2) (hr : 0 ≤ r) :
    battle ⟨[c1, c2]⟩ r =
      Except.ok ⟨c2.meal, ⟨[c2]⟩, [(c2.id, Outcome.win), (c1.id, Outcome.loss)]⟩ := by
  have hdelta : |get_battle_score c1 - get_battle_score c2| / 100 = 0 := by
    rw [hs]
    simp
  simp only [battle, hdelta]
  rw [if_neg (by exact not_lt.mpr hr)]
  simp [removeFirst]

/-- C2 witness: two distinct meals with equal scores and sample 0. -/
theorem c2_tie_break_witness :
    battle ⟨[⟨1, "A", "X", 71, Difficulty.HIGH⟩, ⟨2, "B", "X", 71, Difficulty.HIGH⟩]⟩ 0 =
      Except.ok ⟨"B", ⟨[⟨2, "B", "X", 71, Difficulty.HIGH⟩]⟩,
        [(2, Outcome.win), (1, Outcome.loss)]⟩ :=
  c2_tie_break ⟨1, "A", "X", 71, Difficulty.HIGH⟩ ⟨2, "B", "X", 71, Difficulty.HIGH⟩ 0
    rfl le_rfl

/-- C4: whenever `battle` succeeds from a state with exactly two staged
combatants, exactly one combatant remains staged afterwards, and its name is
the returned winner name (the loser was removed, the winner re-enters the
one-staged state). -/
theorem c4_winner_remains (c1 c2 : Meal) (r : ℚ) (res : BattleResult)
    (h : battle ⟨[c1, c2]⟩ r = Except.ok res) :
    ∃ w : Meal, res.model.combatants = [w] ∧ w.meal = res.winner_name := by
  by_cases hc : (|get_battle_score c1 - get_battle_score c2| / 100 > r)
  · simp only [battle] at h
    rw [if_pos hc] at h
    cases h
    by_cases he : c1 = c2
    · exact ⟨c2, by simp [removeFirst, he], by rw [he]⟩
    · exact ⟨c1, by simp [removeFirst, he], rfl⟩
  · simp only [battle] at h
    rw [if_neg hc] at h
    cases h
    exact ⟨c2, by simp [removeFirst], rfl⟩

/-- C4 witness: the concrete battle of `meal70` against `meal50` at sample 1/10. -/
theorem c4_winner_remains_witness :
    ∃ w : Meal,
      (⟨meal70.meal, ⟨[meal70]⟩,
        [(meal70.id, Outcome.win), (meal50.id, Outcome.loss)]⟩ : BattleResult).model.combatants
        = [w] ∧
      w.meal = (⟨meal70.meal, ⟨[meal70]⟩,
        [(meal70.id, Outcome.win), (meal50.id, Outcome.loss)]⟩ : BattleResult).winner_name := by
  refine c4_winner_remains meal70 meal50 (1/10) _ ?_
  simp only [battle]
  rw [if_pos (by rw [score_meal70_eq, score_meal50_eq]; norm_num)]
  simp [removeFirst, show meal70 ≠ meal50 from by decide]

/-- C5: with fewer than two combatants staged, `battle` raises (the
documented FailedPrecondition), and the failure mutates nothing: the staged
list is unchanged and no stats update is issued. -/
theorem c5_battle_precondition (m : BattleModel) (r : ℚ)
    (h : m.combatants.length < 2) :
    battle m r = Except.error ("Two combatants must be prepped for a battle.") ∧
    battleRun m r = (m, [], none) := by
  obtain ⟨cs⟩ := m
  have hb : battle ⟨cs⟩ r = Except.error ("Two combatants must be prepped for a battle.") := by
    match cs, h with
    | [], _ => rfl
    | [c], _ => rfl
  exact ⟨hb, by rw [battleRun, hb]⟩

/-- C5 witness: the one-staged state with `meal70`, sample 1/2. -/
theorem c5_battle_precondition_witness :
    battle ⟨[meal70]⟩ (1/2) = Except.error ("Two combatants must be prepped for a battle.") ∧
    battleRun ⟨[meal70]⟩ (1/2) = (⟨[meal70]⟩, [], none) :=
  c5_battle_precondition ⟨[meal70]⟩ (1/2) (by decide)

/-- C6: with two combatants already staged, `prep_combatant` raises (the
documented Full) and leaves the staged list unchanged; with fewer than two
staged it appends the new combatant at the end. -/
theorem c6_prep_combatant (m : BattleModel) (c : Meal) :
    (m.combatants.length = 2 →
      prep_combatant m c = Except.error ("Combatant list is full, cannot add more combatants.") ∧
      prepRun m c = m) ∧
    (m.combatants.length < 2 →
      prep_combatant m c = Except.ok ⟨m.combatants ++ [c]⟩) := by
  constructor
  · intro h2
    have he : prep_combatant m c =
        Except.error ("Combatant list is full, cannot add more combatants.") := by
      rw [prep_combatant, if_pos (by omega)]
    exact ⟨he, by rw [prepRun, he]⟩
  · intro hlt
    rw [prep_combatant, if_neg (by omega)]

/-- C6 witness: staging into a full engine fails and changes nothing;
staging into a one-staged engine appends. -/
theorem c6_prep_combatant_witness :
    (prep_combatant ⟨[meal70, meal50]⟩ meal70 =
        Except.error ("Combatant list is full, cannot add more combatants.") ∧
      prepRun ⟨[meal70, meal50]⟩ meal70 = ⟨[meal70, meal50]⟩) ∧
    prep_combatant ⟨[meal70]⟩ meal50 = Except.ok ⟨[meal70] ++ [meal50]⟩ :=
  ⟨(c6_prep_combatant ⟨[meal70, meal50]⟩ meal70).1 rfl,
   (c6_prep_combatant ⟨[meal70]⟩ meal50).2 (by decide)⟩

/-- Helper: removing the first occurrence never lengthens a list. -/
theorem removeFirst_length_le (l : List Meal) (x : Meal) :
    (removeFirst l x).length ≤ l.length := by
  induction l with
  | nil => simp [removeFirst]
  | cons y ys ih =>
    rw [removeFirst]
    by_cases h : y = x
    · rw [if_pos h]
      simp
    · rw [if_neg h]
      simpa using Nat.add_le_add_right ih 1

/-- Helper: a successful `battle` leaves the staged list obtained by removing
the loser from the previous staged list. -/
theorem battle_ok_model (m : BattleModel) (r : ℚ) (res : BattleResult)
    (h : battle m r = Except.ok res) :
    ∃ loser : Meal, res.model = ⟨removeFirst m.combatants loser⟩ := by
  obtain ⟨cs⟩ := m
  match cs with
  | [] => simp [battle] at h
  | [c] => simp [battle] at h
  | c1 :: c2 :: rest =>
    simp only [battle] at h
    split at h
    · cases h
      exact ⟨c2, rfl⟩
    · cases h
      exact ⟨c1, rfl⟩

/-- Helper: a (possibly failing) `battle` never increases the staged count. -/
theorem battleRun_length_le (m : BattleModel) (r : ℚ) :
    ((battleRun m r).1).combatants.length ≤ m.combatants.length := by
  cases hb : battle m r with
  | error e =>
    rw [battleRun, hb]
  | ok res =>
    obtain ⟨loser, hm⟩ := battle_ok_model m r res hb
    rw [battleRun, hb]
    show res.model.combatants.length ≤ m.combatants.length
    rw [hm]
    exact removeFirst_length_le _ _

/-- Helper: each engine operation preserves the two-slot bound. -/
theorem applyOp_length_le (m : BattleModel) (op : EngineOp)
    (h : m.combatants.length ≤ 2) : (applyOp m op).combatants.length ≤ 2 := by
  match op with
  | EngineOp.clear => simp [applyOp, clear_combatants]
  | EngineOp.stage c =>
    rw [applyOp, prepRun, prep_combatant]
    by_cases hfull : m.combatants.length ≥ 2
    · rw [if_pos hfull]
      exact h
    · rw [if_neg hfull]
      simp only [List.length_append, List.length_cons, List.length_nil]
      omega
  | EngineOp.resolve r =>
    exact le_trans (battleRun_length_le m r) h

/-- Helper: the bound holds along any foldl over engine operations. -/
theorem foldlOps_length_le (ops : List EngineOp) (m : BattleModel)
    (h : m.combatants.length ≤ 2) :
    (ops.foldl applyOp m).combatants.length ≤ 2 := by
  induction ops generalizing m with
  | nil => exact h
  | cons op rest ih =>
    rw [List.foldl_cons]
    exact ih (applyOp m op) (applyOp_length_le m op h)

/-- C9: from a freshly constructed engine, every sequence of stage, clear
and resolve operations (succeeding or failing) keeps at most two combatants
staged, and a resolve never increases the staged count. -/
theorem c9_two_slot_invariant :
    (∀ ops : List EngineOp, (runOps ops).combatants.length ≤ 2) ∧
    (∀ (m : BattleModel) (r : ℚ),
      ((battleRun m r).1).combatants.length ≤ m.combatants.length) := by
  constructor
  · intro ops
    exact foldlOps_length_le ops BattleModel.init (by simp [BattleModel.init])
  · exact battleRun_length_le

/-- C10: `battle` never validates the sample range: with two staged
combatants it succeeds for every rational sample `r`, including `r < 0` and
`r ≥ 1`; every `r < 0` makes combatant 1 win when the scores differ, and
every `r ≥ 1` makes combatant 2 win when the scores are at most 100 apart. -/
theorem c10_no_sample_validation (c1 c2 : Meal) (r : ℚ) :
    (battle ⟨[c1, c2]⟩ r).isOk = true ∧
    (r < 0 → get_battle_score c1 ≠ get_battle_score c2 →
      Except.map BattleResult.winner_name (battle ⟨[c1, c2]⟩ r) = Except.ok (c1.meal)) ∧
    (1 ≤ r → |get_battle_score c1 - get_battle_score c2| ≤ 100 →
      Except.map BattleResult.winner_name (battle ⟨[c1, c2]⟩ r) = Except.ok (c2.meal)) := by
  refine ⟨?_, ?_, ?_⟩
  · simp only [battle]
    split <;> rfl
  · intro hr hne
    have hpos : |get_battle_score c1 - get_battle_score c2| / 100 > r := by
      have habs : 0 < |get_battle_score c1 - get_battle_score c2| :=
        abs_pos.mpr (sub_ne_zero.mpr hne)
      calc r < 0 := hr
        _ < |get_battle_score c1 - get_battle_score c2| / 100 := by positivity
    simp only [battle]
    rw [if_pos hpos]
    rfl
  · intro hr habs
    have hle : ¬ (|get_battle_score c1 - get_battle_score c2| / 100 > r) := by
      rw [not_lt]
      calc |get_battle_score c1 - get_battle_score c2| / 100
          ≤ 100 / 100 := by
            apply div_le_div_of_nonneg_right habs
            norm_num
        _ = 1 := by norm_num
        _ ≤ r := hr
    simp only [battle]
    rw [if_neg hle]
    rfl

/-- C10 witness: `meal70` against `meal50` at the out-of-range samples
-1 (combatant 1 wins) and 2 (combatant 2 wins). -/
theorem c10_no_sample_validation_witness :
    Except.map BattleResult.winner_name (battle ⟨[meal70, meal50]⟩ (-1)) =
      Except.ok (meal70.meal) ∧
    Except.map BattleResult.winner_name (battle ⟨[meal70, meal50]⟩ 2) =
      Except.ok (meal50.meal) :=
  ⟨(c10_no_sample_validation meal70 meal50 (-1)).2.1 (by norm_num)
      (by rw [score_meal70_eq, score_meal50_eq]; norm_num),
   (c10_no_sample_validation meal70 meal50 2).2.2 (by norm_num)
      (by rw [score_meal70_eq, score_meal50_eq]; norm_num)⟩

/-- Helper: the descending-by-key comparison is transitive. -/
theorem sortKey_trans (sort_by : String) (a b c : LeaderboardEntry)
    (hab : decide (sortKeyValue sort_by b ≤ sortKeyValue sort_by a) = true)
    (hbc : decide (sortKeyValue sort_by c ≤ sortKeyValue sort_by b) = true) :
    decide (sortKeyValue sort_by c ≤ sortKeyValue sort_by a) = true :=
  decide_eq_true (le_trans (of_decide_eq_true hbc) (of_decide_eq_true hab))

/-- Helper: the descending-by-key comparison is total. -/
theorem sortKey_total (sort_by : String) (a b : LeaderboardEntry) :
    (decide (sortKeyValue sort_by b ≤ sortKeyValue sort_by a) ||
      decide (sortKeyValue sort_by a ≤ sortKeyValue sort_by b)) = true := by
  rcases le_total (sortKeyValue sort_by b) (sortKeyValue sort_by a) with h | h
  · simp [h]
  · simp [h]

/-- C7: for a valid sort key (`battles_count` or `win_ratio`), the
leaderboard succeeds and returns exactly the non-deleted records with
`battles > 0`, each augmented with the exact win percentage
`wins / battles * 100` (a permutation of the filtered, augmented store rows),
sorted descending by the requested key; any other key fails InvalidArgument. -/
theorem c7_leaderboard (store : List StoredMeal) (sort_by : String) :
    ((sort_by = ("battles_count") ∨ sort_by = ("win_ratio")) →
      ∃ l : List LeaderboardEntry,
        get_leaderboard store sort_by = Except.ok l ∧
        l.Perm ((store.filter (fun m => !m.deleted && decide (0 < m.battles))).map toEntry) ∧
        l.Pairwise (fun a b => sortKeyValue sort_by b ≤ sortKeyValue sort_by a)) ∧
    (sort_by ≠ ("battles_count") → sort_by ≠ ("win_ratio") →
      get_leaderboard store sort_by = Except.error (StoreError.invalidArgument sort_by)) := by
  constructor
  · intro hvalid
    refine ⟨_, by rw [get_leaderboard, if_pos hvalid], ?_, ?_⟩
    · exact List.mergeSort_perm (leaderboardRows store) _
    · exact (List.sorted_mergeSort (sortKey_trans sort_by) (sortKey_total sort_by)
        (leaderboardRows store)).imp (fun h => of_decide_eq_true h)
  · intro h1 h2
    rw [get_leaderboard, if_neg (by tauto)]

/-- A two-row store used to witness the leaderboard claim. -/
def demoStore : List StoredMeal :=
  [⟨1, "Spaghetti", "Italian", 13, Difficulty.MED, 10, 7, false⟩,
   ⟨2, "Sushi", "Japanese", 16, Difficulty.HIGH, 8, 5, true⟩,
   ⟨3, "Burrito", "Mexican", 9, Difficulty.LOW, 0, 0, false⟩]

/-- C7 witness: on the concrete `demoStore`, the key `win_ratio` succeeds
with sorted rows and the key `wins` is rejected. -/
theorem c7_leaderboard_witness :
    (∃ l : List LeaderboardEntry,
      get_leaderboard demoStore ("win_ratio") = Except.ok l ∧
      l.Perm ((demoStore.filter (fun m => !m.deleted && decide (0 < m.battles))).map toEntry) ∧
      l.Pairwise (fun a b => sortKeyValue ("win_ratio") b ≤ sortKeyValue ("win_ratio") a)) ∧
    get_leaderboard demoStore ("wins") =
      Except.error (StoreError.invalidArgument ("wins")) :=
  ⟨(c7_leaderboard demoStore ("win_ratio")).1 (Or.inr rfl),
   (c7_leaderboard demoStore ("wins")).2 (by decide) (by decide)⟩

/-- Helper: updating the row with a given id commutes with lookup by that id
(the increment preserves the id column). -/
theorem getMealById_map_update (store : List StoredMeal) (meal_id : Nat) (res : Outcome) :
    getMealById (store.map (fun x => if x.id = meal_id then applyOutcome res x else x)) meal_id
      = Option.map (applyOutcome res) (getMealById store meal_id) := by
  induction store with
  | nil => rfl
  | cons x xs ih =>
    by_cases h : x.id = meal_id
    · simp [getMealById, List.find?, h, applyOutcome]
    · have hb : (x.id == meal_id) = false := by simpa using h
      simp only [getMealById, List.map_cons, if_neg h, List.find?, hb] at ih ⊢
      exact ih

/-- C8: for an id present and not soft-deleted, recording a WIN increments
both `battles` and `wins` by exactly 1 and recording a LOSS increments only
`battles`; an absent id fails NotFound and a soft-deleted id fails Gone, in
both cases leaving the store unchanged. -/
theorem c8_record_outcome (store : List StoredMeal) (meal_id : Nat) :
    (getMealById store meal_id = none →
      ∀ res, update_meal_stats store meal_id res = Except.error (StoreError.notFound meal_id) ∧
        updateRun store meal_id res = (store, some (StoreError.notFound meal_id))) ∧
    (∀ m : StoredMeal, getMealById store meal_id = some m → m.deleted = true →
      ∀ res, update_meal_stats store meal_id res = Except.error (StoreError.gone meal_id) ∧
        updateRun store meal_id res = (store, some (StoreError.gone meal_id))) ∧
    (∀ m : StoredMeal, getMealById store meal_id = some m → m.deleted = false →
      (∃ store2, update_meal_stats store meal_id Outcome.win = Except.ok store2 ∧
        getMealById store2 meal_id =
          some { m with battles := m.battles + 1, wins := m.wins + 1 }) ∧
      (∃ store2, update_meal_stats store meal_id Outcome.loss = Except.ok store2 ∧
        getMealById store2 meal_id = some { m with battles := m.battles + 1 })) := by
  refine ⟨?_, ?_, ?_⟩
  · intro hnone res
    have he : update_meal_stats store meal_id res = Except.error (StoreError.notFound meal_id) := by
      rw [update_meal_stats, hnone]
    exact ⟨he, by rw [updateRun, he]⟩
  · intro m hm hdel res
    have he : update_meal_stats store meal_id res = Except.error (StoreError.gone meal_id) := by
      rw [update_meal_stats, hm]
      show (if m.deleted then _ else _) = _
      rw [if_pos hdel]
    exact ⟨he, by rw [updateRun, he]⟩
  · intro m hm hdel
    have hok : ∀ res, update_meal_stats store meal_id res =
        Except.ok (store.map (fun x => if x.id = meal_id then applyOutcome res x else x)) := by
      intro res
      rw [update_meal_stats, hm]
      show (if m.deleted then _ else _) = _
      rw [if_neg (by rw [hdel]; exact Bool.false_ne_true)]
    constructor
    · refine ⟨_, hok Outcome.win, ?_⟩
      rw [getMealById_map_update, hm]
      rfl
    · refine ⟨_, hok Outcome.loss, ?_⟩
      rw [getMealById_map_update, hm]
      rfl

/-- C8 witness: on the concrete `demoStore`, a WIN for id 1 increments both
counters, a LOSS increments only `battles`, id 4 is NotFound and the
soft-deleted id 2 is Gone, both leaving the store unchanged. -/
theorem c8_record_outcome_witness :
    (update_meal_stats demoStore 4 Outcome.win = Except.error (StoreError.notFound 4) ∧
      updateRun demoStore 4 Outcome.win = (demoStore, some (StoreError.notFound 4))) ∧
    (update_meal_stats demoStore 2 Outcome.win = Except.error (StoreError.gone 2) ∧
      updateRun demoStore 2 Outcome.win = (demoStore, some (StoreError.gone 2))) ∧
    (∃ store2, update_meal_stats demoStore 1 Outcome.win = Except.ok store2 ∧
      getMealById store2 1 =
        some ⟨1, "Spaghetti", "Italian", 13, Difficulty.MED, 11, 8, false⟩) ∧
    (∃ store2, update_meal_stats demoStore 1 Outcome.loss = Except.ok store2 ∧
      getMealById store2 1 =
        some ⟨1, "Spaghetti", "Italian", 13, Difficulty.MED, 11, 7, false⟩) := by
  refine ⟨(c8_record_outcome demoStore 4).1 rfl Outcome.win,
    (c8_record_outcome demoStore 2).2.1
      ⟨2, "Sushi", "Japanese", 16, Difficulty.HIGH, 8, 5, true⟩ rfl rfl Outcome.win,
    ?_, ?_⟩
  · exact ((c8_record_outcome demoStore 1).2.2
      ⟨1, "Spaghetti", "Italian", 13, Difficulty.MED, 10, 7, false⟩ rfl rfl).1
  · exact ((c8_record_outcome demoStore 1).2.2
      ⟨1, "Spaghetti", "Italian", 13, Difficulty.MED, 10, 7, false⟩ rfl rfl).2

end MealMax
